import Mathlib

/-!
# voxblox: ESDF map queries and label queries

A shallow embedding of `voxblox/src/core/esdf_map.cc` together with the
collaborators it calls.  Out-parameters (`double* distance`,
`Eigen::Vector3d* gradient`) are modelled by explicit state passing: a
function receives the value the caller's variable holds before the call and
returns the value it holds afterwards next to the boolean result.

The scalar types are kept abstract: `F` stands for `FloatingPoint`, `D` for
`double`, and `cast : F → D` for `static_cast<double>`.  No property below
depends on how floating-point arithmetic rounds.
-/

namespace voxblox

/-- A three-component vector (`Point`, `Eigen::Vector3d`). -/
abbrev Vec3 (α : Type) := α × α × α

/-- Component-wise conversion, `gradient_fp.cast<double>()`. -/
def Vec3.cast {α β : Type} (c : α → β) (v : Vec3 α) : Vec3 β :=
  (c v.1, c v.2.1, c v.2.2)

/-- `Point::Zero()`. -/
def Vec3.Zero {α : Type} (zero : α) : Vec3 α := (zero, zero, zero)

/-- The interface of `Interpolator<EsdfVoxel>` that `EsdfMap` calls.  Each
method receives the prior contents of its out-parameters and returns their
contents after the call together with the success flag.

* `getDistance pos distance interpolate`
* `getAdaptiveDistanceAndGradient pos distance grad` -/
structure Interpolator (Pos F : Type) where
  getDistance : Pos → F → Bool → Bool × F
  getAdaptiveDistanceAndGradient : Pos → F → Vec3 F → Bool × F × Vec3 F

/-- The part of `EsdfMap` the two queries read: the member `interpolator_`,
plus the scalar conversion and the zero of `FloatingPoint`. -/
structure EsdfMap (Pos F D : Type) where
  interpolator_ : Interpolator Pos F
  cast : F → D
  zero : F

/-- `EsdfMap::getDistanceAtPosition` (esdf_map.cc, lines 5-14).
`uninit` is the indeterminate initial content of the local `distance_fp`;
`distance` is the content of `*distance` before the call.  The result is the
returned flag and the content of `*distance` after the call. -/
def EsdfMap.getDistanceAtPosition {Pos F D : Type} (m : EsdfMap Pos F D)
    (uninit : F) (position : Pos) (distance : D) : Bool × D :=
  let interpolate := true
  let distance_fp := uninit
  let r := m.interpolator_.getDistance position distance_fp interpolate
  let success := r.1
  let distance_fp := r.2
  if success then
    (success, m.cast distance_fp)
  else
    (success, distance)

/-- `EsdfMap::getDistanceAndGradientAtPosition` (esdf_map.cc, lines 16-29).
`uninit` is the indeterminate initial content of the local `distance_fp`;
`distance` and `gradient` are the contents of the caller's outputs before the
call (the code never reads them).  The result is the returned flag and the
contents of `*distance` and `*gradient` after the call. -/
def EsdfMap.getDistanceAndGradientAtPosition {Pos F D : Type}
    (m : EsdfMap Pos F D) (uninit : F) (position : Pos)
    (_distance : D) (_gradient : Vec3 D) : Bool × D × Vec3 D :=
  let distance_fp := uninit
  let gradient_fp : Vec3 F := Vec3.Zero m.zero
  let r := m.interpolator_.getAdaptiveDistanceAndGradient position distance_fp gradient_fp
  let success := r.1
  let distance_fp := r.2.1
  let gradient_fp := r.2.2
  (success, m.cast distance_fp, Vec3.cast m.cast gradient_fp)

/-! ## The interpolator, modelled from the specification

`Interpolator<EsdfVoxel>` is not among the sources at hand; what follows is
its description in section 4.4 of the specification. -/

/-- Scalar arithmetic of `FloatingPoint`, taken as a parameter so that nothing
is assumed about rounding. -/
structure Arith (F : Type) where
  zero : F
  one : F
  add : F → F → F
  sub : F → F → F
  mul : F → F → F
  div : F → F → F
  floor : F → Int
  ofInt : Int → F

/-- Block index: three integers. -/
abbrev BlockIndex := Int × Int × Int

/-- Local voxel coordinate inside a block: three naturals below
voxels-per-side. -/
abbrev LocalIndex := Nat × Nat × Nat

/-- Address of one voxel: block index and local coordinate. -/
abbrev VoxelAddress := BlockIndex × LocalIndex

/-- Modelled from the spec: the Grid/Layer of section 3 (the `Layer` class is
absent from the sources): a map from block index to Block, a Block being a
dense array of voxel payloads; `none` is a block that was never created. -/
abbrev Layer (V : Type) := BlockIndex → Option (LocalIndex → V)

/-- Modelled from the spec: `getBlock` of section 4.1 (absent from the
sources) followed by the read of one voxel: lookup only, "not found" for an
unallocated block. -/
def Layer.getVoxel {V : Type} (l : Layer V) (a : VoxelAddress) : Option V :=
  match l a.1 with
  | none => none
  | some blk => some (blk a.2)

/-- Configuration of the distance layer and of the finite differences. -/
structure InterpolatorConfig (F : Type) where
  voxel_size : F
  voxels_per_side : Nat
  small_step : F
  large_step : F

/-- Modelled from the spec: address computation of section 4.1 for a global
voxel index (absent from the sources): floor-division by voxels-per-side
gives the block, the remainder the local coordinate. -/
def voxelAddressOfGlobal (n : Nat) (g : Int × Int × Int) : VoxelAddress :=
  ((g.1.fdiv n, g.2.1.fdiv n, g.2.2.fdiv n),
   ((g.1.fmod n).toNat, (g.2.1.fmod n).toNat, (g.2.2.fmod n).toNat))

/-- Linear blend `(1 - t) * a + t * b`. -/
def lerp {F : Type} (A : Arith F) (t a b : F) : F :=
  A.add (A.mul (A.sub A.one t) a) (A.mul t b)

/-- Along one axis: the index of the voxel whose centre lies at or below `x`
and the fraction of the way from that centre to the next one. -/
def cellOf {F : Type} (A : Arith F) (voxel_size x : F) : Int × F :=
  let u := A.sub (A.div x voxel_size) (A.div A.one (A.add A.one A.one))
  (A.floor u, A.sub u (A.ofInt (A.floor u)))

/-- Modelled from the spec: the interpolated branch of
`Interpolator::getDistance` (absent from the sources): trilinear interpolation
of the 8 voxel centres surrounding `pos`; no result if the block of any of
the 8 voxels is unallocated. -/
def interpolatedDistance {F : Type} (A : Arith F) (cfg : InterpolatorConfig F)
    (l : Layer F) (pos : Vec3 F) : Option F :=
  let cx := cellOf A cfg.voxel_size pos.1
  let cy := cellOf A cfg.voxel_size pos.2.1
  let cz := cellOf A cfg.voxel_size pos.2.2
  let v := fun (i j k : Int) =>
    l.getVoxel (voxelAddressOfGlobal cfg.voxels_per_side (cx.1 + i, cy.1 + j, cz.1 + k))
  match v 0 0 0, v 1 0 0, v 0 1 0, v 1 1 0 with
  | some d000, some d100, some d010, some d110 =>
    match v 0 0 1, v 1 0 1, v 0 1 1, v 1 1 1 with
    | some d001, some d101, some d011, some d111 =>
      some (lerp A cz.2
        (lerp A cy.2 (lerp A cx.2 d000 d100) (lerp A cx.2 d010 d110))
        (lerp A cy.2 (lerp A cx.2 d001 d101) (lerp A cx.2 d011 d111)))
    | _, _, _, _ => none
  | _, _, _, _ => none

/-- Modelled from the spec: the non-interpolated branch of
`Interpolator::getDistance` (absent from the sources): the value of the voxel
that contains `pos`. -/
def nearestDistance {F : Type} (A : Arith F) (cfg : InterpolatorConfig F)
    (l : Layer F) (pos : Vec3 F) : Option F :=
  l.getVoxel (voxelAddressOfGlobal cfg.voxels_per_side
    (A.floor (A.div pos.1 cfg.voxel_size), A.floor (A.div pos.2.1 cfg.voxel_size),
     A.floor (A.div pos.2.2 cfg.voxel_size)))

/-- Move `pos` by `h` along axis `axis` (0, 1 or 2). -/
def shiftAxis {F : Type} (A : Arith F) (pos : Vec3 F) (axis : Nat) (h : F) : Vec3 F :=
  match axis with
  | 0 => (A.add pos.1 h, pos.2.1, pos.2.2)
  | 1 => (pos.1, A.add pos.2.1 h, pos.2.2)
  | _ => (pos.1, pos.2.1, A.add pos.2.2 h)

/-- Centred finite difference of the interpolated field along one axis with
step `h`; no result if either sample touches an unallocated block. -/
def centralDifference {F : Type} (A : Arith F) (cfg : InterpolatorConfig F)
    (l : Layer F) (pos : Vec3 F) (axis : Nat) (h : F) : Option F :=
  match interpolatedDistance A cfg l (shiftAxis A pos axis h),
        interpolatedDistance A cfg l (shiftAxis A pos axis (A.sub A.zero h)) with
  | some a, some b => some (A.div (A.sub a b) (A.mul (A.add A.one A.one) h))
  | _, _ => none

/-- One gradient component: the small step, else the larger step; no result
when neither can be sampled. -/
def gradientAxis {F : Type} (A : Arith F) (cfg : InterpolatorConfig F)
    (l : Layer F) (pos : Vec3 F) (axis : Nat) : Option F :=
  match centralDifference A cfg l pos axis cfg.small_step with
  | some g => some g
  | none => centralDifference A cfg l pos axis cfg.large_step

/-- Modelled from the spec: `Interpolator::getDistance` and
`Interpolator::getAdaptiveDistanceAndGradient` (absent from the sources), as
section 4.4 describes them.  The distance is the trilinear interpolation of
the 8 surrounding voxel centres and fails if a required block is unallocated.
The adaptive query has the "distance as above" and a gradient by centred
finite differences with a small step and a larger fallback step per axis; it
fails when a block it needs is unallocated, be it for the distance or for a
gradient component that neither step can sample, "reporting no result rather
than a partially-correct one".  On failure nothing is written. -/
def Interpolator.ofLayer {F : Type} (A : Arith F) (cfg : InterpolatorConfig F)
    (l : Layer F) : Interpolator (Vec3 F) F where
  getDistance := fun pos distance interpolate =>
    match (if interpolate then interpolatedDistance A cfg l pos
           else nearestDistance A cfg l pos) with
    | some d => (true, d)
    | none => (false, distance)
  getAdaptiveDistanceAndGradient := fun pos distance grad =>
    match interpolatedDistance A cfg l pos with
    | some d =>
      match gradientAxis A cfg l pos 0, gradientAxis A cfg l pos 1,
            gradientAxis A cfg l pos 2 with
      | some gx, some gy, some gz => (true, d, (gx, gy, gz))
      | _, _, _ => (false, distance, grad)
    | none => (false, distance, grad)

/-- An `EsdfMap` over a distance layer, with the modelled interpolator. -/
def EsdfMap.ofLayer {F D : Type} (A : Arith F) (cfg : InterpolatorConfig F)
    (cast : F → D) (l : Layer F) : EsdfMap (Vec3 F) F D :=
  { interpolator_ := Interpolator.ofLayer A cfg l, cast := cast, zero := A.zero }

/-! ### Concrete instances used to evaluate the definitions -/

/-- Integer arithmetic as an instance of `Arith`. -/
def intArith : Arith Int :=
  { zero := 0, one := 1, add := fun a b => a + b, sub := fun a b => a - b,
    mul := fun a b => a * b, div := fun a b => a / b, floor := fun a => a,
    ofInt := fun a => a }

/-- A configuration with voxel size 1 and 8 voxels per side. -/
def intConfig : InterpolatorConfig Int :=
  { voxel_size := 1, voxels_per_side := 8, small_step := 1, large_step := 2 }

/-- The map with no block allocated. -/
def emptyLayer (V : Type) : Layer V := fun _ => none

/-- A distance layer whose only allocated block is block (0,0,0); the voxel at
local coordinate (x,y,z) holds the distance x. -/
def oneBlockLayer : Layer Int :=
  fun b => if b = (0, 0, 0) then some (fun i => (i.1 : Int)) else none

/-! ## The label integrator, modelled from the specification

`LabelTsdfIntegrator` and `LabelTsdfMap` are not among the sources at hand
(only their test is); what follows is section 4.3 of the specification.  The
label queries depend on the label layer and the registry only, so the distance
fusion that `integratePointCloud` performs on the TSDF layer is left out. -/

/-- A label id (transient or persistent). -/
abbrev Label := Nat

/-- Modelled from the spec: LabelVoxel of section 3 (absent from the sources):
a mapping from persistent label id to observation count, as an association
list; the empty list is a voxel that was never labelled. -/
abbrev LabelVoxel := List (Label × Nat)

/-- One more observation of `id`: its count goes up by one, starting from 1. -/
def LabelVoxel.increment : LabelVoxel → Label → LabelVoxel
  | [], id => [(id, 1)]
  | (k, c) :: t, id =>
    if k = id then (k, c + 1) :: t else (k, c) :: LabelVoxel.increment t id

/-- The observation count of `id` (0 when absent). -/
def LabelVoxel.count : LabelVoxel → Label → Nat
  | [], _ => 0
  | (k, c) :: t, id => if k = id then c else LabelVoxel.count t id

/-- Entry `e` wins over entry `b`: a higher count, or the same count and a
lower id. -/
def LabelVoxel.wins (e b : Label × Nat) : Bool :=
  decide (b.2 < e.2) || (decide (e.2 = b.2) && decide (e.1 < b.1))

/-- The entry with the highest count, ties broken by the lowest id; `none` for
a voxel that was never labelled. -/
def LabelVoxel.dominant : LabelVoxel → Option (Label × Nat)
  | [] => none
  | e :: t =>
    match LabelVoxel.dominant t with
    | none => some e
    | some b => if LabelVoxel.wins e b then some e else some b

/-- Modelled from the spec: LabelRegistry of section 3 (absent from the
sources).  `seen` is the identity table from the transient labels met in this
run to the persistent id each was given; `merged` is the union-find, kept
fully compressed (each merged id points at its surviving id);
`highest_label` is the monotonic "highest assigned id" counter. -/
structure LabelRegistry where
  seen : List (Label × Label)
  merged : List (Label × Label)
  highest_label : Nat

/-- The surviving id that `id` resolves to. -/
def LabelRegistry.find (r : LabelRegistry) (id : Label) : Label :=
  match r.merged.lookup id with
  | some root => root
  | none => id

/-- Resolve a transient label to a persistent id, assigning a fresh id from
the counter on first sight. -/
def LabelRegistry.resolve (r : LabelRegistry) (label : Label) : Label × LabelRegistry :=
  match r.seen.lookup label with
  | some id => (r.find id, r)
  | none =>
    (r.highest_label + 1,
     { r with seen := (label, r.highest_label + 1) :: r.seen,
              highest_label := r.highest_label + 1 })

/-- Union of two ids; the lower id survives, and every id that resolved to
the other one now resolves to the survivor. -/
def LabelRegistry.union (r : LabelRegistry) (a b : Label) : LabelRegistry :=
  let ra := r.find a
  let rb := r.find b
  if ra = rb then r
  else
    let lo := min ra rb
    let hi := max ra rb
    { r with merged :=
        (hi, lo) :: r.merged.map (fun e => if e.2 = hi then (e.1, lo) else e) }

/-- The reserved "unknown" id: the id right above the highest one assigned.
The test `ComputeUnseenLabelPointCloud` fixes it: "the unseen label 2" after
label 1 alone was integrated. -/
def LabelRegistry.unknownLabel (r : LabelRegistry) : Label :=
  r.highest_label + 1

/-- Modelled from the spec: `LabelTsdfMap` (absent from the sources), as far
as label queries go: the label layer and the registry with the highest-label
counter. -/
structure LabelTsdfMap where
  label_layer : Layer LabelVoxel
  registry : LabelRegistry

/-- The map of `SetUp`: no block, nothing seen, counter at 0. -/
def LabelTsdfMap.empty : LabelTsdfMap :=
  { label_layer := fun _ => none,
    registry := { seen := [], merged := [], highest_label := 0 } }

/-- Modelled from the spec: `getOrCreateBlock` of section 4.1 (absent from the
sources) followed by the write of one voxel: the block is created on first
touch as a full dense array of never-labelled voxels. -/
def Layer.setLabelVoxel (l : Layer LabelVoxel) (a : VoxelAddress) (v : LabelVoxel) :
    Layer LabelVoxel :=
  fun b =>
    if b = a.1 then
      some (fun i => if i = a.2 then v else
        match l a.1 with
        | some blk => blk i
        | none => [])
    else l b

/-- The geometry the label integrator works with, taken as a parameter: the
sources at hand and the specification fix neither the ray traversal nor the
extent of the band.  `transform` takes a point from the sensor frame to the
world frame; `valid` says that the point has finite coordinates and a positive
range; `voxelAddressFor` is `blockIndexFor` with `voxelIndexFor`; `band` lists
the voxels of the narrow band "at/around the observed surface", which
contains the voxel that holds the observed point (`band_surface`). -/
structure Geometry (Pose P : Type) where
  transform : Pose → P → P
  valid : Pose → P → Bool
  voxelAddressFor : P → VoxelAddress
  band : Pose → P → List VoxelAddress
  band_surface : ∀ (pose : Pose) (p : P), valid pose p = true →
    voxelAddressFor (transform pose p) ∈ band pose p

/-- Merge policy: if the voxel's dominant id and the newly resolved id differ
and both have at least `threshold` observations in the voxel, the two ids are
united in the registry. -/
def mergePolicy (threshold : Nat) (r : LabelRegistry) (hist : LabelVoxel) (id : Label) :
    LabelRegistry :=
  match hist.dominant with
  | none => r
  | some d =>
    if d.1 ≠ id ∧ threshold ≤ d.2 ∧ threshold ≤ hist.count id then r.union d.1 id else r

/-- One touched voxel: resolve the transient label through the registry,
increment that persistent id in the histogram of the voxel, apply the merge
policy. -/
def updateLabelVoxel (threshold : Nat) (m : LabelTsdfMap) (a : VoxelAddress)
    (label : Label) : LabelTsdfMap :=
  let res := m.registry.resolve label
  let hist := LabelVoxel.increment ((m.label_layer.getVoxel a).getD []) res.1
  { label_layer := m.label_layer.setLabelVoxel a hist,
    registry := mergePolicy threshold res.2 hist res.1 }

/-- One observation: skipped when the point is not valid, else every voxel of
its band is updated with its label. -/
def integratePoint {Pose P : Type} (G : Geometry Pose P) (threshold : Nat) (pose : Pose)
    (m : LabelTsdfMap) (pl : P × Label) : LabelTsdfMap :=
  if G.valid pose pl.1 then
    (G.band pose pl.1).foldl (fun acc a => updateLabelVoxel threshold acc a pl.2) m
  else m

/-- Modelled from the spec: `LabelTsdfIntegrator::integratePointCloud`
(absent from the sources), label part, section 4.3: the points are taken in
order, each with its label. -/
def integratePointCloud {Pose P : Type} (G : Geometry Pose P) (threshold : Nat)
    (m : LabelTsdfMap) (pose : Pose) (points : List P) (labels : List Label) :
    LabelTsdfMap :=
  (points.zip labels).foldl (integratePoint G threshold pose) m

/-- The label of one query point: the nearest (non-interpolated) voxel is
looked up; unallocated or never labelled gives the reserved "unknown" id,
else the highest-count id of the histogram, ties broken by the lowest id,
resolved through the registry to the id that survives its merges. -/
def pointLabel {Pose P : Type} (G : Geometry Pose P) (m : LabelTsdfMap) (pose : Pose)
    (p : P) : Label :=
  match m.label_layer.getVoxel (G.voxelAddressFor (G.transform pose p)) with
  | none => m.registry.unknownLabel
  | some hist =>
    match hist.dominant with
    | none => m.registry.unknownLabel
    | some d => m.registry.find d.1

/-- Modelled from the spec: `LabelTsdfIntegrator::computePointCloudLabel`
(absent from the sources), section 4.3: one label per point, in order. -/
def computePointCloudLabel {Pose P : Type} (G : Geometry Pose P) (m : LabelTsdfMap)
    (pose : Pose) (points : List P) : List Label :=
  points.map (pointLabel G m pose)

/-- A new run begins: the table of the transient labels met so far is
forgotten (transient labels are "not globally unique across frames"); the
voxels, the merges and the counter stay. -/
def LabelTsdfMap.newRun (m : LabelTsdfMap) : LabelTsdfMap :=
  { m with registry := { m.registry with seen := [] } }

/-- The map states that integration reaches from the empty map, whether the
table of transient labels lives as long as the map or is forgotten between
integrations. -/
inductive Reachable {Pose P : Type} (G : Geometry Pose P) (threshold : Nat) :
    LabelTsdfMap → Prop
  | empty : Reachable G threshold LabelTsdfMap.empty
  | integrate (m : LabelTsdfMap) (pose : Pose) (points : List P) (labels : List Label) :
      Reachable G threshold m →
      Reachable G threshold (integratePointCloud G threshold m pose points labels)
  | newRun (m : LabelTsdfMap) :
      Reachable G threshold m → Reachable G threshold m.newRun

/-! ### A concrete geometry used to evaluate the definitions -/

/-- Floor-division address of a point with integer coordinates counted in
steps of 0.05 m, for voxels of 0.1 m (2 steps) and 8 voxels per side (16
steps per block). -/
def gridAddress (p : Int × Int × Int) : VoxelAddress :=
  ((p.1.fdiv 16, p.2.1.fdiv 16, p.2.2.fdiv 16),
   (((p.1.fmod 16).fdiv 2).toNat, ((p.2.1.fmod 16).fdiv 2).toNat,
    ((p.2.2.fmod 16).fdiv 2).toNat))

/-- The geometry of the test: sensor at the origin with the identity pose,
points on the 0.05 m lattice, band reduced to the voxel of the point. -/
def gridGeometry : Geometry Unit (Int × Int × Int) :=
  { transform := fun _ p => p,
    valid := fun _ p => decide (p ≠ (0, 0, 0)),
    voxelAddressFor := gridAddress,
    band := fun _ p => [gridAddress p],
    band_surface := fun _ _ _ => List.mem_singleton.mpr rfl }

/-! ## Invariants of label integration -/

/-- Every persistent id stored anywhere in the map is at most the
highest-label counter. -/
def BoundedInv (m : LabelTsdfMap) : Prop :=
  (∀ a hist e, m.label_layer.getVoxel a = some hist → e ∈ hist →
      e.1 ≤ m.registry.highest_label) ∧
  (∀ e ∈ m.registry.seen, e.2 ≤ m.registry.highest_label) ∧
  (∀ e ∈ m.registry.merged, e.2 ≤ m.registry.highest_label)

/-! ## Theorems: distance queries -/

/-- C2: `getDistanceAtPosition` returns true exactly when the interpolator's
`getDistance`, called with `interpolate = true`, succeeds at the position, and
when it returns true the distance written is the interpolator's distance
converted to double. -/
theorem getDistanceAtPosition_iff_interpolator {Pos F D : Type} (m : EsdfMap Pos F D) (uninit : F)
    (position : Pos) (distance : D) :
    ((m.getDistanceAtPosition uninit position distance).1 = true ↔
      (m.interpolator_.getDistance position uninit true).1 = true) ∧
    ((m.getDistanceAtPosition uninit position distance).1 = true →
      (m.getDistanceAtPosition uninit position distance).2 =
        m.cast (m.interpolator_.getDistance position uninit true).2) := by
  unfold EsdfMap.getDistanceAtPosition
  cases h : (m.interpolator_.getDistance position uninit true).1 <;> simp [h]

/-- C3: when `getDistanceAtPosition` returns false, the caller's distance
output holds after the call the value it held before. -/
theorem getDistanceAtPosition_false_unchanged {Pos F D : Type} (m : EsdfMap Pos F D) (uninit : F)
    (position : Pos) (distance : D)
    (h : (m.getDistanceAtPosition uninit position distance).1 = false) :
    (m.getDistanceAtPosition uninit position distance).2 = distance := by
  unfold EsdfMap.getDistanceAtPosition at h ⊢
  cases hs : (m.interpolator_.getDistance position uninit true).1 <;> simp_all

/-- C9: `getDistanceAndGradientAtPosition` returns the success flag of the
interpolator's `getAdaptiveDistanceAndGradient`, and when that flag is true
the distance and the gradient written are the interpolator's, converted
component-wise to double. -/
theorem getDistanceAndGradientAtPosition_eq_interpolator {Pos F D : Type}
    (m : EsdfMap Pos F D)
    (uninit : F) (position : Pos) (distance : D) (gradient : Vec3 D) :
    (m.getDistanceAndGradientAtPosition uninit position distance gradient).1 =
      (m.interpolator_.getAdaptiveDistanceAndGradient position uninit
        (Vec3.Zero m.zero)).1 ∧
    ((m.interpolator_.getAdaptiveDistanceAndGradient position uninit
        (Vec3.Zero m.zero)).1 = true →
      (m.getDistanceAndGradientAtPosition uninit position distance gradient).2.1 =
        m.cast (m.interpolator_.getAdaptiveDistanceAndGradient position uninit
          (Vec3.Zero m.zero)).2.1 ∧
      (m.getDistanceAndGradientAtPosition uninit position distance gradient).2.2 =
        (m.cast (m.interpolator_.getAdaptiveDistanceAndGradient position uninit
            (Vec3.Zero m.zero)).2.2.1,
         m.cast (m.interpolator_.getAdaptiveDistanceAndGradient position uninit
            (Vec3.Zero m.zero)).2.2.2.1,
         m.cast (m.interpolator_.getAdaptiveDistanceAndGradient position uninit
            (Vec3.Zero m.zero)).2.2.2.2)) := by
  refine ⟨rfl, fun _ => ⟨rfl, rfl⟩⟩

/-- Witness of C2 on the one-block map at position (3,3,3): the query succeeds
and writes the interpolated distance. -/
theorem getDistanceAtPosition_iff_interpolator_witness :
    ((EsdfMap.ofLayer intArith intConfig (fun x => x) oneBlockLayer).getDistanceAtPosition
        99 (3, 3, 3) 55).1 = true ∧
    ((EsdfMap.ofLayer intArith intConfig (fun x => x) oneBlockLayer).getDistanceAtPosition
        99 (3, 3, 3) 55).2 = 3 :=
  ⟨by decide,
   ((getDistanceAtPosition_iff_interpolator
      (EsdfMap.ofLayer intArith intConfig (fun x => x) oneBlockLayer) 99 (3, 3, 3) 55).2
      (by decide)).trans (by decide)⟩

/-- Witness of C3 on the empty map: the query fails and the caller's 55 is
still there. -/
theorem getDistanceAtPosition_false_unchanged_witness :
    ((EsdfMap.ofLayer intArith intConfig (fun x => x)
        (emptyLayer Int)).getDistanceAtPosition 99 (3, 3, 3) 55).1 = false ∧
    ((EsdfMap.ofLayer intArith intConfig (fun x => x)
        (emptyLayer Int)).getDistanceAtPosition 99 (3, 3, 3) 55).2 = 55 :=
  ⟨by decide,
   getDistanceAtPosition_false_unchanged
     (EsdfMap.ofLayer intArith intConfig (fun x => x) (emptyLayer Int)) 99 (3, 3, 3) 55
     (by decide)⟩

/-- Witness of C9 on the one-block map at position (3,3,3): distance 3 and
gradient (1,0,0) are written. -/
theorem getDistanceAndGradientAtPosition_eq_interpolator_witness :
    ((EsdfMap.ofLayer intArith intConfig (fun x => x)
        oneBlockLayer).getDistanceAndGradientAtPosition 99 (3, 3, 3) 55 (7, 7, 7)).1 = true ∧
    ((EsdfMap.ofLayer intArith intConfig (fun x => x)
        oneBlockLayer).getDistanceAndGradientAtPosition 99 (3, 3, 3) 55 (7, 7, 7)).2.1 = 3 ∧
    ((EsdfMap.ofLayer intArith intConfig (fun x => x)
        oneBlockLayer).getDistanceAndGradientAtPosition 99 (3, 3, 3) 55 (7, 7, 7)).2.2 =
      (1, 0, 0) :=
  ⟨by decide,
   (((getDistanceAndGradientAtPosition_eq_interpolator
      (EsdfMap.ofLayer intArith intConfig (fun x => x) oneBlockLayer) 99 (3, 3, 3) 55
      (7, 7, 7)).2 (by decide)).1).trans (by decide),
   (((getDistanceAndGradientAtPosition_eq_interpolator
      (EsdfMap.ofLayer intArith intConfig (fun x => x) oneBlockLayer) 99 (3, 3, 3) 55
      (7, 7, 7)).2 (by decide)).2).trans (by decide)⟩

/-- C1, evaluated on the empty map: `getDistanceAndGradientAtPosition` returns
false at (3,3,3), yet the caller's distance 55 has become the indeterminate
content 99 of the local `distance_fp` and the caller's gradient (7,7,7) has
become zero, while `getDistanceAtPosition` leaves the 55 in place. -/
theorem getDistanceAndGradientAtPosition_writes_on_failure :
    (EsdfMap.ofLayer intArith intConfig (fun x => x)
        (emptyLayer Int)).getDistanceAndGradientAtPosition 99 (3, 3, 3) 55 (7, 7, 7) =
      (false, 99, (0, 0, 0)) ∧
    (EsdfMap.ofLayer intArith intConfig (fun x => x)
        (emptyLayer Int)).getDistanceAtPosition 99 (3, 3, 3) 55 = (false, 55) := by
  decide

/-! ## Theorems: label queries -/

theorem LabelVoxel.dominant_cons_none (e : Label × Nat) (t : LabelVoxel)
    (h : LabelVoxel.dominant t = none) : LabelVoxel.dominant (e :: t) = some e := by
  simp [LabelVoxel.dominant, h]

theorem LabelVoxel.dominant_cons_some (e b : Label × Nat) (t : LabelVoxel)
    (h : LabelVoxel.dominant t = some b) :
    LabelVoxel.dominant (e :: t) = if LabelVoxel.wins e b = true then some e else some b := by
  simp [LabelVoxel.dominant, h]

theorem LabelVoxel.dominant_eq_none (hist : LabelVoxel) :
    LabelVoxel.dominant hist = none ↔ hist = [] := by
  cases hist with
  | nil => simp [LabelVoxel.dominant]
  | cons e t =>
    cases hd : LabelVoxel.dominant t with
    | none => simp [LabelVoxel.dominant_cons_none e t hd]
    | some b =>
      rw [LabelVoxel.dominant_cons_some e b t hd]
      by_cases hw : LabelVoxel.wins e b = true <;> simp [hw]

theorem LabelVoxel.dominant_mem (hist : LabelVoxel) (d : Label × Nat)
    (h : LabelVoxel.dominant hist = some d) : d ∈ hist := by
  induction hist generalizing d with
  | nil => simp [LabelVoxel.dominant] at h
  | cons e t ih =>
    cases hd : LabelVoxel.dominant t with
    | none =>
      rw [LabelVoxel.dominant_cons_none e t hd] at h
      simp only [Option.some.injEq] at h
      simp [h]
    | some b =>
      rw [LabelVoxel.dominant_cons_some e b t hd] at h
      by_cases hw : LabelVoxel.wins e b = true
      · rw [if_pos hw] at h
        simp only [Option.some.injEq] at h
        simp [h]
      · rw [if_neg hw] at h
        simp only [Option.some.injEq] at h
        subst h
        exact List.mem_cons_of_mem _ (ih b hd)

/-! ### The layer under a voxel write -/

theorem Layer.getVoxel_set_cases (l : Layer LabelVoxel) (a b : VoxelAddress)
    (v hist : LabelVoxel) (h : (Layer.setLabelVoxel l a v).getVoxel b = some hist) :
    (b = a ∧ hist = v) ∨ l.getVoxel b = some hist ∨ hist = [] := by
  obtain ⟨a1, a2⟩ := a
  obtain ⟨b1, b2⟩ := b
  simp only [Layer.getVoxel, Layer.setLabelVoxel] at h ⊢
  by_cases hb : b1 = a1
  · subst hb
    simp only [if_true, Option.some.injEq] at h
    by_cases hi : b2 = a2
    · subst hi
      simp only [if_true] at h
      exact Or.inl ⟨rfl, h.symm⟩
    · simp only [hi, if_false] at h
      cases hl : l b1 with
      | none =>
        rw [hl] at h
        exact Or.inr (Or.inr h.symm)
      | some blk =>
        rw [hl] at h
        exact Or.inr (Or.inl (by simpa using h))
  · simp only [hb, if_false] at h
    exact Or.inr (Or.inl h)

theorem pointLabel_of_unseen {Pose P : Type} (G : Geometry Pose P) (m : LabelTsdfMap)
    (pose : Pose) (p : P)
    (h : m.label_layer.getVoxel (G.voxelAddressFor (G.transform pose p)) = none ∨
         m.label_layer.getVoxel (G.voxelAddressFor (G.transform pose p)) = some []) :
    pointLabel G m pose p = m.registry.unknownLabel := by
  rcases h with h | h <;> simp [pointLabel, h, LabelVoxel.dominant]

/-! ### Every stored id stays at or below the counter -/

theorem lookup_mem (l : List (Label × Label)) (k v : Label)
    (h : l.lookup k = some v) : (k, v) ∈ l := by
  induction l with
  | nil => simp at h
  | cons e t ih =>
    obtain ⟨a, b⟩ := e
    rw [List.lookup_cons] at h
    by_cases hk : (k == a) = true
    · rw [hk] at h
      simp only [Option.some.injEq] at h
      have hka : k = a := by simpa using hk
      rw [hka, ← h]
      exact List.mem_cons_self _ _
    · have hk2 : (k == a) = false := by simpa using hk
      rw [hk2] at h
      exact List.mem_cons_of_mem _ (ih h)

theorem LabelRegistry.find_le (r : LabelRegistry) (id : Label)
    (hm : ∀ e ∈ r.merged, e.2 ≤ r.highest_label) (hid : id ≤ r.highest_label) :
    r.find id ≤ r.highest_label := by
  unfold LabelRegistry.find
  cases hl : r.merged.lookup id with
  | none => exact hid
  | some root => exact hm (id, root) (lookup_mem _ _ _ hl)

theorem LabelRegistry.resolve_bounded (r : LabelRegistry) (label : Label)
    (hs : ∀ e ∈ r.seen, e.2 ≤ r.highest_label)
    (hm : ∀ e ∈ r.merged, e.2 ≤ r.highest_label) :
    (r.resolve label).1 ≤ (r.resolve label).2.highest_label ∧
    r.highest_label ≤ (r.resolve label).2.highest_label ∧
    (∀ e ∈ (r.resolve label).2.seen, e.2 ≤ (r.resolve label).2.highest_label) ∧
    (∀ e ∈ (r.resolve label).2.merged, e.2 ≤ (r.resolve label).2.highest_label) := by
  unfold LabelRegistry.resolve
  cases hl : r.seen.lookup label with
  | some id =>
    exact ⟨LabelRegistry.find_le r id hm (hs (label, id) (lookup_mem _ _ _ hl)),
      le_refl _, hs, hm⟩
  | none =>
    refine ⟨le_refl _, Nat.le_succ _, ?_, ?_⟩
    · intro e he
      rcases List.mem_cons.mp he with rfl | het
      · exact le_refl _
      · exact Nat.le_succ_of_le (hs e het)
    · intro e he
      exact Nat.le_succ_of_le (hm e he)

theorem LabelRegistry.union_bounded (r : LabelRegistry) (a b : Label)
    (hm : ∀ e ∈ r.merged, e.2 ≤ r.highest_label) (ha : a ≤ r.highest_label) :
    (r.union a b).highest_label = r.highest_label ∧
    (r.union a b).seen = r.seen ∧
    (∀ e ∈ (r.union a b).merged, e.2 ≤ r.highest_label) := by
  unfold LabelRegistry.union
  by_cases heq : r.find a = r.find b
  · dsimp only
    rw [if_pos heq]
    exact ⟨rfl, rfl, hm⟩
  · dsimp only
    rw [if_neg heq]
    have hlo : min (r.find a) (r.find b) ≤ r.highest_label :=
      le_trans (min_le_left _ _) (LabelRegistry.find_le r a hm ha)
    refine ⟨rfl, rfl, ?_⟩
    intro e he
    rcases List.mem_cons.mp he with rfl | het
    · exact hlo
    · obtain ⟨x, hx, rfl⟩ := List.mem_map.mp het
      by_cases hc : x.2 = max (r.find a) (r.find b)
      · rw [if_pos hc]
        exact hlo
      · rw [if_neg hc]
        exact hm x hx

theorem mergePolicy_bounded (T : Nat) (r : LabelRegistry) (hist : LabelVoxel) (id : Label)
    (hm : ∀ e ∈ r.merged, e.2 ≤ r.highest_label)
    (hh : ∀ e ∈ hist, e.1 ≤ r.highest_label) :
    (mergePolicy T r hist id).highest_label = r.highest_label ∧
    (mergePolicy T r hist id).seen = r.seen ∧
    (∀ e ∈ (mergePolicy T r hist id).merged, e.2 ≤ r.highest_label) := by
  unfold mergePolicy
  cases hd : LabelVoxel.dominant hist with
  | none => exact ⟨rfl, rfl, hm⟩
  | some d =>
    by_cases hc : d.1 ≠ id ∧ T ≤ d.2 ∧ T ≤ LabelVoxel.count hist id
    · dsimp only
      rw [if_pos hc]
      exact LabelRegistry.union_bounded r d.1 id hm
        (hh d (LabelVoxel.dominant_mem hist d hd))
    · dsimp only
      rw [if_neg hc]
      exact ⟨rfl, rfl, hm⟩

theorem LabelVoxel.mem_increment (hist : LabelVoxel) (id : Label) (e : Label × Nat)
    (h : e ∈ LabelVoxel.increment hist id) : e.1 = id ∨ e ∈ hist := by
  induction hist with
  | nil =>
    simp only [LabelVoxel.increment, List.mem_singleton] at h
    exact Or.inl (by rw [h])
  | cons x t ih =>
    obtain ⟨k, c⟩ := x
    simp only [LabelVoxel.increment] at h
    by_cases hk : k = id
    · rw [if_pos hk] at h
      rcases List.mem_cons.mp h with rfl | het
      · exact Or.inl hk
      · exact Or.inr (List.mem_cons_of_mem _ het)
    · rw [if_neg hk] at h
      rcases List.mem_cons.mp h with rfl | het
      · exact Or.inr (List.mem_cons_self _ _)
      · rcases ih het with h1 | h2
        · exact Or.inl h1
        · exact Or.inr (List.mem_cons_of_mem _ h2)

theorem updateLabelVoxel_bounded (T : Nat) (m : LabelTsdfMap) (a : VoxelAddress)
    (label : Label) (h : BoundedInv m) : BoundedInv (updateLabelVoxel T m a label) := by
  obtain ⟨hlayer, hs, hm⟩ := h
  obtain ⟨hp, hmono, hs2, hm2⟩ := LabelRegistry.resolve_bounded m.registry label hs hm
  have hhist : ∀ e ∈ LabelVoxel.increment ((m.label_layer.getVoxel a).getD [])
      (m.registry.resolve label).1, e.1 ≤ (m.registry.resolve label).2.highest_label := by
    intro e he
    rcases LabelVoxel.mem_increment _ _ e he with h1 | h2
    · rw [h1]
      exact hp
    · cases hv : m.label_layer.getVoxel a with
      | none => simp [hv] at h2
      | some old =>
        rw [hv] at h2
        exact le_trans (hlayer a old e hv h2) hmono
  obtain ⟨hH, hS, hM⟩ := mergePolicy_bounded T (m.registry.resolve label).2 _
    (m.registry.resolve label).1 hm2 hhist
  unfold BoundedInv updateLabelVoxel
  simp only []
  rw [hH, hS]
  refine ⟨?_, hs2, hM⟩
  intro b hist e hb he
  rcases Layer.getVoxel_set_cases _ _ _ _ _ hb with ⟨_, hv⟩ | hv | hv
  · rw [hv] at he
    exact hhist e he
  · exact le_trans (hlayer b hist e hv he) hmono
  · rw [hv] at he
    simp at he

theorem integratePoint_bounded {Pose P : Type} (G : Geometry Pose P) (T : Nat) (pose : Pose)
    (m : LabelTsdfMap) (pl : P × Label) (h : BoundedInv m) :
    BoundedInv (integratePoint G T pose m pl) := by
  unfold integratePoint
  by_cases hv : G.valid pose pl.1 = true
  · rw [if_pos hv]
    generalize G.band pose pl.1 = band
    induction band generalizing m with
    | nil => exact h
    | cons a t ih =>
      simp only [List.foldl_cons]
      exact ih _ (updateLabelVoxel_bounded T m a pl.2 h)
  · rw [if_neg hv]
    exact h

theorem integratePointCloud_bounded {Pose P : Type} (G : Geometry Pose P) (T : Nat)
    (m : LabelTsdfMap) (pose : Pose) (points : List P) (labels : List Label)
    (h : BoundedInv m) : BoundedInv (integratePointCloud G T m pose points labels) := by
  unfold integratePointCloud
  generalize points.zip labels = pls
  induction pls generalizing m with
  | nil => exact h
  | cons pl t ih =>
    simp only [List.foldl_cons]
    exact ih _ (integratePoint_bounded G T pose m pl h)

theorem boundedInv_of_empty : BoundedInv LabelTsdfMap.empty := by
  refine ⟨?_, ?_, ?_⟩
  · intro a hist e hv
    simp [LabelTsdfMap.empty, Layer.getVoxel] at hv
  · intro e he
    simp [LabelTsdfMap.empty] at he
  · intro e he
    simp [LabelTsdfMap.empty] at he

theorem Reachable.bounded {Pose P : Type} (G : Geometry Pose P) (T : Nat) (m : LabelTsdfMap)
    (h : Reachable G T m) : BoundedInv m := by
  induction h with
  | empty => exact boundedInv_of_empty
  | integrate m pose points labels _ ih =>
    exact integratePointCloud_bounded G T m pose points labels ih
  | newRun m _ ih =>
    exact ⟨ih.1, fun e he => by simp [LabelTsdfMap.newRun] at he, ih.2.2⟩

/-- C10: in every map state that integration reaches from the empty map, the
"unknown" id that a query answers for a never-observed point differs from
every persistent id held in a voxel histogram and from every persistent id
the registry has given to an integrated label. -/
theorem unknownLabel_not_integrated {Pose P : Type} (G : Geometry Pose P) (T : Nat)
    (m : LabelTsdfMap) (h : Reachable G T m) (pose : Pose) (p : P)
    (hunseen : m.label_layer.getVoxel (G.voxelAddressFor (G.transform pose p)) = none ∨
      m.label_layer.getVoxel (G.voxelAddressFor (G.transform pose p)) = some []) :
    ∃ u, computePointCloudLabel G m pose [p] = [u] ∧
      (∀ (a : VoxelAddress) (hist : LabelVoxel) (e : Label × Nat),
        m.label_layer.getVoxel a = some hist → e ∈ hist → u ≠ e.1) ∧
      (∀ e ∈ m.registry.seen, u ≠ e.2) := by
  obtain ⟨hlayer, hs, _⟩ := Reachable.bounded G T m h
  refine ⟨m.registry.unknownLabel, ?_, ?_, ?_⟩
  · simp [computePointCloudLabel, pointLabel_of_unseen G m pose p hunseen]
  · intro a hist e hv he hc
    have := hlayer a hist e hv he
    rw [← hc] at this
    exact absurd this (Nat.not_succ_le_self _)
  · intro e he hc
    have := hs e he
    rw [← hc] at this
    exact absurd this (Nat.not_succ_le_self _)

/-- Witness of C10: with labels 1 and 2 both integrated (persistent ids 1 and
2), the id answered for a never-observed point is not 2. -/
theorem unknownLabel_not_integrated_witness :
    Reachable gridGeometry 3
      (integratePointCloud gridGeometry 3 LabelTsdfMap.empty () [(1, 20, 1), (35, 20, 1)]
        [1, 2]) ∧
    ∃ u, computePointCloudLabel gridGeometry
        (integratePointCloud gridGeometry 3 LabelTsdfMap.empty ()
          [(1, 20, 1), (35, 20, 1)] [1, 2]) () [(90, 20, 1)] = [u] ∧ u ≠ 2 :=
  ⟨Reachable.integrate _ _ _ _ Reachable.empty,
   (unknownLabel_not_integrated gridGeometry 3 _
      (Reachable.integrate LabelTsdfMap.empty () [(1, 20, 1), (35, 20, 1)] [1, 2]
        Reachable.empty) () (90, 20, 1) (by decide)).imp
      (fun _ hu => ⟨hu.1, hu.2.2 (2, 2) (by decide)⟩)⟩

end voxblox
